import Mathlib

/-!
Verification of the rag-go-server index build and query pipeline
(`build_index/build_db.py`, `build_index/embedding.py`,
`build_index/push_cloud.py`), shallowly embedded in Lean 4.

Rows read from the CSV are modelled as association lists from field name
to string value (Python dicts with first-match lookup); metadata payload
objects as association lists from key to a JSON-like value; embedding
vectors as lists of integers (only their lengths matter to the claims).
The external embedding provider and the CSV reader are passed in as
function parameters, mirroring the spec's treatment of them as external
collaborators.
-/

namespace RagGoServer

/-- Python `dict` lookup on an association list: first binding wins. -/
def dget {β : Type} : List (String × β) → String → Option β
  | [], _ => none
  | (k, v) :: rest, key => if k = key then some v else dget rest key

/-- Python `dict.get(key, default)`. -/
def dgetD {β : Type} (m : List (String × β)) (key : String) (default : β) : β :=
  (dget m key).getD default

/-- The six-line course text template `QUERY_FMT` of `build_db.py`,
as its seven literal segments around the six substitution slots. -/
def QUERY_FMT : List String :=
  [ "课程名称：",
    "。\n授课教师：",
    "。\n课程内容与评价：",
    "。\n考勤与平时作业：",
    "。\n期末考核方式：",
    "。\n评价填写人成绩：",
    "。" ]

/-- Python `str.format`: interleave the template's literal segments with
the positional arguments. -/
def pyFormat : List String → List String → String
  | [], _ => ""
  | [s], _ => s
  | s :: ss, [] => s ++ pyFormat ss []
  | s :: ss, a :: rest => s ++ a ++ pyFormat ss rest

/-- The static `COURSE_TYPE_TO_CLASS` mapping of `build_db.py`
(course-attribute label to integer class code). -/
def COURSE_TYPE_TO_CLASS : List (String × Nat) :=
  [ ("不指定", 0),
    ("体育课", 1),
    ("通识选修课（公选课）", 2),
    ("公共课", 3),
    ("公共课（高数、线代、大物和思政课等）", 3),
    ("公共必修课（高数、线代、大物和思政课等）", 3),
    ("专业课程", 4),
    ("通识必修课（导引课）", 5),
    ("通识必修课（导引）", 5),
    ("导引课（自科人文中国精神）", 5),
    ("英语课", 6) ]

/-- A raw CSV row: field name to string value. -/
abbrev Row := List (String × String)

/-- Function `parseDict` of `build_db.py`: format the six fields into `QUERY_FMT`
(missing fields become the empty string) and map the course-attribute
field through `COURSE_TYPE_TO_CLASS` (absent attribute defaults to
"不指定", unknown labels to code 0). -/
def parseDict (row : Row) : String × Nat :=
  let formatted_text := pyFormat QUERY_FMT
    [ dgetD row "课程名称" "",
      dgetD row "授课老师" "",
      dgetD row "课程内容与评价" "",
      dgetD row "考勤与平时作业" "",
      dgetD row "期末考核方式" "",
      dgetD row "课程成绩" "" ]
  let course_type := dgetD row "课程属性" "不指定"
  let class_id := dgetD COURSE_TYPE_TO_CLASS course_type 0
  (formatted_text, class_id)

/-- An embedding vector.  Only lengths matter to the claims, so entries
are integers rather than floats. -/
abbrev Vec := List Int

/-- A JSON-like payload value (string or integer), as stored in
`metadata.json` and returned in a Qdrant payload. -/
inductive PValue where
  | s : String → PValue
  | n : Nat → PValue
deriving DecidableEq, Repr

/-- A payload / metadata object: key to value, first binding wins. -/
abbrev Payload := List (String × PValue)

/-- The metadata object appended per record by `build_rag_database`:
`{"text": text, "category": category}`. -/
def mkMeta (text : String) (category : Nat) : Payload :=
  [("text", PValue.s text), ("category", PValue.n category)]

/-- The per-record loop of `build_rag_database`: for each row in input
order, parse it, call the embedding provider on the formatted text, and
append the vector and the `{text, category}` object in lockstep.  A
raising `embed` call (modelled as `none`) aborts the whole loop. -/
def processRows (embed : String → Option Vec) : List Row →
    Option (List Vec × List Payload)
  | [] => some ([], [])
  | row :: rest =>
    match embed (parseDict row).1 with
    | none => none
    | some vec =>
      match processRows embed rest with
      | none => none
      | some (es, ms) =>
        some (vec :: es, mkMeta (parseDict row).1 (parseDict row).2 :: ms)

/-- Model of `np.vstack` on a list of 1-D vectors: raises (`none`) on an empty
list or when the vectors do not all share one length; otherwise returns
the stacked rows unchanged.  It never consults the configured
`embedding_dim`. -/
def vstack (vs : List Vec) : Option (List Vec) :=
  match vs with
  | [] => none
  | v :: rest => if rest.all (fun w => w.length = v.length) then some (v :: rest) else none

/-- The `faiss.Index.add` dimension check: adding an `(N, d')` buffer to an
index of dimension `d` succeeds exactly when `d' = d` for every row. -/
def faissAdd (d : Nat) (rows : List Vec) : Bool :=
  rows.all (fun v => v.length = d)

/-- Outcome of the build after the CSV has been loaded.  `success`
carries the two persisted files (the index contents and
`metadata.json`); every other constructor is a raise at the named point,
with nothing persisted.  `addFailure` occurs inside `index.add`, after
`faiss.IndexFlatL2(embedding_dim)` has already been constructed, while
`stackFailure` occurs at `np.vstack`, before index construction. -/
inductive BuildResult where
  | embedFailure
  | stackFailure
  | addFailure
  | success (indexFile : List Vec) (metadataFile : List Payload)
deriving DecidableEq, Repr

/-- Whether a build outcome persisted its output files. -/
def BuildResult.isSuccess : BuildResult → Bool
  | .success _ _ => true
  | _ => false

/-- Stages 2-4 of `build_rag_database` (`build_db.py`): run the
per-record loop, stack the vectors with `np.vstack`, construct
`faiss.IndexFlatL2(embedding_dim)`, add the stacked buffer, and only
then write `faiss.index` and `metadata.json`. -/
def build_rag_database (rows : List Row) (embed : String → Option Vec)
    (embedding_dim : Nat) : BuildResult :=
  match processRows embed rows with
  | none => .embedFailure
  | some (embeddings, metadata) =>
    match vstack embeddings with
    | none => .stackFailure
    | some embeddings_np =>
      if faissAdd embedding_dim embeddings_np then
        .success embeddings_np metadata
      else
        .addFailure

/-- Function `get_embedding` of `embedding.py`: call
`model.encode([text], batch_size=1, max_length=512)["dense_vecs"][0]`.
The provider is passed in as `encode` (arguments: texts, batch_size,
max_length).  The `dim` parameter (Python default 384) appears nowhere
in the body. -/
def get_embedding (encode : List String → Nat → Nat → List Vec)
    (text : String) (dim : Nat := 384) : Vec :=
  (encode [text] 1 512).headD []

/-- Newline replacement of the query client:
`text.replace("\n", " ")` for the single-character pattern. -/
def replaceNewlines (s : String) : String :=
  ⟨s.data.map (fun c => if c = '\n' then ' ' else c)⟩

/-- The preview formatting of the result loop in `push_cloud.py`:
`snippet = text[:120].replace("\n", " ")`, then append `"..."` exactly
when `len(text) > 120`. -/
def previewSnippet (text : String) : String :=
  let snippet := replaceNewlines ⟨text.data.take 120⟩
  if text.data.length > 120 then snippet ++ "..." else snippet

/-- The category display of the result loop in `push_cloud.py`:
`payload.get("catagory", "未分类")` (note the misspelled key). -/
def clientCategory (payload : Payload) : PValue :=
  dgetD payload "catagory" (PValue.s "未分类")

/-- Ways `pd.read_csv` can raise: a `UnicodeDecodeError`, or any other
exception (parser errors, OS errors, ...). -/
inductive ReadErr where
  | unicodeDecodeError
  | otherError
deriving DecidableEq, Repr

/-- Stage 1 of `build_rag_database`: `pd.read_csv(path, encoding="gbk")`
inside `try`, with `except UnicodeDecodeError` falling back to
`pd.read_csv(path, encoding="utf-8")`.  The two attempts' outcomes are
passed in as `gbk` and `utf8`. -/
def loadCsv {Df : Type} (gbk utf8 : Except ReadErr Df) : Except ReadErr Df :=
  match gbk with
  | .error .unicodeDecodeError => utf8
  | r => r

/-! ## Helper lemmas -/

theorem dget_mem {β : Type} (k : String) (v : β) :
    ∀ (m : List (String × β)), dget m k = some v → (k, v) ∈ m := by
  intro m
  induction m with
  | nil => intro h; simp [dget] at h
  | cons p rest ih =>
    intro h
    obtain ⟨a, b⟩ := p
    by_cases hak : a = k
    · subst hak
      simp [dget] at h
      subst h
      exact List.mem_cons_self _ _
    · simp only [dget, if_neg hak] at h
      exact List.mem_cons_of_mem _ (ih h)

theorem dget_eq_none {β : Type} (k : String) :
    ∀ (m : List (String × β)), (∀ p ∈ m, p.1 ≠ k) → dget m k = none := by
  intro m
  induction m with
  | nil => intro _; rfl
  | cons p rest ih =>
    intro hall
    obtain ⟨a, b⟩ := p
    have ha : a ≠ k := hall (a, b) (List.mem_cons_self _ _)
    show (if a = k then some b else dget rest k) = none
    rw [if_neg ha]
    exact ih fun q hq => hall q (List.mem_cons_of_mem _ hq)

theorem course_type_codes_le : ∀ p ∈ COURSE_TYPE_TO_CLASS, p.2 ≤ 6 := by decide

theorem course_type_lookup_self :
    ∀ p ∈ COURSE_TYPE_TO_CLASS, dget COURSE_TYPE_TO_CLASS p.1 = some p.2 := by decide

/-! ## Claim theorems -/

/-- C2. For every known course-type label string in the static
`COURSE_TYPE_TO_CLASS` mapping, `parseDict` returns that label's fixed
code (in particular "专业课程" yields 4, "体育课" yields 1, and each of
the three public-course label variants yields 3); for any label not in
the mapping, and for a row with no "课程属性" key at all, `parseDict`
returns category 0. -/
theorem category_mapping_exact :
    (∀ p ∈ COURSE_TYPE_TO_CLASS, ∀ row : Row,
        dget row "课程属性" = some p.1 → (parseDict row).2 = p.2) ∧
    (parseDict [("课程属性", "专业课程")]).2 = 4 ∧
    (parseDict [("课程属性", "体育课")]).2 = 1 ∧
    (parseDict [("课程属性", "公共课")]).2 = 3 ∧
    (parseDict [("课程属性", "公共课（高数、线代、大物和思政课等）")]).2 = 3 ∧
    (parseDict [("课程属性", "公共必修课（高数、线代、大物和思政课等）")]).2 = 3 ∧
    (∀ (row : Row) (label : String), dget row "课程属性" = some label →
        (∀ p ∈ COURSE_TYPE_TO_CLASS, p.1 ≠ label) → (parseDict row).2 = 0) ∧
    (∀ row : Row, dget row "课程属性" = none → (parseDict row).2 = 0) := by
  refine ⟨?_, by decide, by decide, by decide, by decide, by decide, ?_, ?_⟩
  · intro p hp row hrow
    show dgetD COURSE_TYPE_TO_CLASS (dgetD row "课程属性" "不指定") 0 = p.2
    simp only [dgetD, hrow, Option.getD_some]
    rw [course_type_lookup_self p hp]
    rfl
  · intro row label hrow hunknown
    show dgetD COURSE_TYPE_TO_CLASS (dgetD row "课程属性" "不指定") 0 = 0
    simp only [dgetD, hrow, Option.getD_some]
    rw [dget_eq_none label COURSE_TYPE_TO_CLASS hunknown]
    rfl
  · intro row hrow
    show dgetD COURSE_TYPE_TO_CLASS (dgetD row "课程属性" "不指定") 0 = 0
    simp only [dgetD, hrow, Option.getD_none]
    rfl

/-- Witness for C2: the unknown-label branch at the concrete row
`{"课程属性": "线性代数(不在映射中)"}` and the known-label branch at
"英语课". -/
theorem category_mapping_exact_witness :
    (parseDict [("课程属性", "线性代数(不在映射中)")]).2 = 0 ∧
    (parseDict [("课程属性", "英语课")]).2 = 6 := by
  have h := category_mapping_exact
  constructor
  · exact h.2.2.2.2.2.2.1 [("课程属性", "线性代数(不在映射中)")]
      "线性代数(不在映射中)" (by decide) (by decide)
  · exact h.1 ("英语课", 6) (by decide) [("课程属性", "英语课")] (by decide)

/-- C3. `parseDict` is total over arbitrary string-to-string mappings:
it always returns a `(text, category)` pair (in Lean, a total function),
each of the six template slots is either the row's value for the
corresponding key or the empty string, and the returned category is in
`{0, ..., 6}`. -/
theorem parseDict_total (row : Row) :
    (parseDict row).2 ∈ Finset.range 7 ∧
    (parseDict row).1 = pyFormat QUERY_FMT
      [ dgetD row "课程名称" "",
        dgetD row "授课老师" "",
        dgetD row "课程内容与评价" "",
        dgetD row "考勤与平时作业" "",
        dgetD row "期末考核方式" "",
        dgetD row "课程成绩" "" ] ∧
    ∀ k : String, dget row k = none ∨ dget row k = some (dgetD row k "") := by
  refine ⟨?_, rfl, ?_⟩
  · rw [Finset.mem_range, Nat.lt_succ_iff]
    show dgetD COURSE_TYPE_TO_CLASS (dgetD row "课程属性" "不指定") 0 ≤ 6
    rw [dgetD]
    cases hc : dget COURSE_TYPE_TO_CLASS (dgetD row "课程属性" "不指定") with
    | none => exact Nat.zero_le 6
    | some code =>
      exact course_type_codes_le _ (dget_mem _ code COURSE_TYPE_TO_CLASS hc)
  · intro k
    cases hk : dget row k with
    | none => exact Or.inl rfl
    | some v => exact Or.inr (by rw [dgetD, hk]; rfl)

/-- C4. The text produced by `parseDict` substitutes exactly six fields
— course name, instructor, content/review, attendance & coursework,
final assessment method, reviewer's grade — in that exact order into the
fixed six-line template `QUERY_FMT`, and any key absent from the input
mapping contributes an empty-string substitution rather than an error. -/
theorem text_template_order (row : Row) :
    (parseDict row).1 =
      "课程名称：" ++ dgetD row "课程名称" "" ++
      "。\n授课教师：" ++ dgetD row "授课老师" "" ++
      "。\n课程内容与评价：" ++ dgetD row "课程内容与评价" "" ++
      "。\n考勤与平时作业：" ++ dgetD row "考勤与平时作业" "" ++
      "。\n期末考核方式：" ++ dgetD row "期末考核方式" "" ++
      "。\n评价填写人成绩：" ++ dgetD row "课程成绩" "" ++ "。" ∧
    ∀ k : String, dget row k = none → dgetD row k "" = "" := by
  constructor
  · show pyFormat QUERY_FMT _ = _
    simp only [QUERY_FMT, pyFormat]
    simp [String.append_assoc]
  · intro k hk
    rw [dgetD, hk]
    rfl

/-- Witness for C4 at a concrete row missing all keys but one. -/
theorem text_template_order_witness :
    (parseDict [("授课老师", "张三")]).1 =
      "课程名称：" ++ "" ++ "。\n授课教师：" ++ "张三" ++
      "。\n课程内容与评价：" ++ "" ++ "。\n考勤与平时作业：" ++ "" ++
      "。\n期末考核方式：" ++ "" ++ "。\n评价填写人成绩：" ++ "" ++ "。" ∧
    dgetD [("授课老师", "张三")] "课程名称" "" = "" := by
  have h := text_template_order [("授课老师", "张三")]
  exact ⟨h.1, h.2 "课程名称" (by decide)⟩

theorem processRows_spec (embed : String → Option Vec) :
    ∀ (rows : List Row) (es : List Vec) (ms : List Payload),
      processRows embed rows = some (es, ms) →
      es.length = rows.length ∧ ms.length = rows.length ∧
      ∀ (i : Nat) (row : Row), rows[i]? = some row →
        es[i]? = embed (parseDict row).1 ∧
        ms[i]? = some (mkMeta (parseDict row).1 (parseDict row).2) := by
  intro rows
  induction rows with
  | nil =>
    intro es ms h
    simp [processRows] at h
    obtain ⟨he, hm⟩ := h
    subst he; subst hm
    refine ⟨rfl, rfl, ?_⟩
    intro i row hrow
    simp at hrow
  | cons r rest ih =>
    intro es ms h
    cases hemb : embed (parseDict r).1 with
    | none => simp [processRows, hemb] at h
    | some vec =>
      cases hrec : processRows embed rest with
      | none => simp [processRows, hemb, hrec] at h
      | some pr =>
        obtain ⟨es', ms'⟩ := pr
        simp [processRows, hemb, hrec] at h
        obtain ⟨he, hm⟩ := h
        subst he; subst hm
        obtain ⟨hl1, hl2, hidx⟩ := ih es' ms' hrec
        refine ⟨by simp [hl1], by simp [hl2], ?_⟩
        intro i row hrow
        cases i with
        | zero =>
          simp only [List.getElem?_cons_zero, Option.some.injEq] at hrow
          subst hrow
          exact ⟨by simp [hemb], by simp⟩
        | succ n =>
          simp only [List.getElem?_cons_succ] at hrow ⊢
          exact hidx n row hrow

theorem processRows_eq_none_of_fail (embed : String → Option Vec) :
    ∀ rows : List Row, (∃ row ∈ rows, embed (parseDict row).1 = none) →
      processRows embed rows = none := by
  intro rows
  induction rows with
  | nil => rintro ⟨row, hmem, _⟩; simp at hmem
  | cons r rest ih =>
    rintro ⟨row, hmem, hfail⟩
    rcases List.mem_cons.mp hmem with heq | hmem'
    · subst heq
      simp [processRows, hfail]
    · have hrest := ih ⟨row, hmem', hfail⟩
      cases hemb : embed (parseDict r).1 with
      | none => simp [processRows, hemb]
      | some vec => simp [processRows, hemb, hrest]

theorem vstack_eq_some (vs ws : List Vec) (h : vstack vs = some ws) : ws = vs := by
  cases vs with
  | nil => simp [vstack] at h
  | cons v rest =>
    by_cases hc : rest.all (fun w => w.length = v.length)
    · simp [vstack, hc] at h
      exact h.symm
    · simp [vstack, hc] at h

/-- C1. For a store built from N records, for every index i in [0, N),
the vector at position i and the metadata object at position i both
originate from input record i: `build_rag_database` appends one vector
and one `{text, category}` object in lockstep per iteration, so the
persisted index rows and metadata list have equal length N and
positionally aligned entries. -/
theorem build_positional_alignment (rows : List Row)
    (embed : String → Option Vec) (d : Nat) (idx : List Vec)
    (md : List Payload)
    (h : build_rag_database rows embed d = .success idx md) :
    idx.length = rows.length ∧ md.length = rows.length ∧
    ∀ (i : Nat) (row : Row), rows[i]? = some row →
      idx[i]? = embed (parseDict row).1 ∧
      md[i]? = some (mkMeta (parseDict row).1 (parseDict row).2) := by
  unfold build_rag_database at h
  cases hp : processRows embed rows with
  | none => rw [hp] at h; simp at h
  | some pr =>
    obtain ⟨es, ms⟩ := pr
    rw [hp] at h
    dsimp only at h
    cases hv : vstack es with
    | none => rw [hv] at h; simp at h
    | some stacked =>
      rw [hv] at h
      dsimp only at h
      by_cases hadd : faissAdd d stacked
      · rw [if_pos hadd] at h
        simp only [BuildResult.success.injEq] at h
        obtain ⟨hidx, hmd⟩ := h
        subst hidx; subst hmd
        rw [vstack_eq_some es stacked hv]
        exact processRows_spec embed rows es ms hp
      · rw [if_neg hadd] at h
        simp at h

/-- Witness for C1 at a two-record input with a constant embedder. -/
theorem build_positional_alignment_witness :
    ([[(7 : Int)], [7]] : List Vec).length = 2 := by
  have h := build_positional_alignment [[("课程名称", "A")], []]
    (fun _ => some [7]) 1 [[7], [7]]
    [ mkMeta (parseDict [("课程名称", "A")]).1 (parseDict [("课程名称", "A")]).2,
      mkMeta (parseDict ([] : Row)).1 (parseDict ([] : Row)).2 ] rfl
  exact h.1

/-- C5. If embedding any record fails, the entire build aborts with
nothing persisted: `build_rag_database` yields `embedFailure`, not
`success`, and conversely a successful build (the only outcome that
writes the index and metadata files) implies every record in the input
sequence embedded successfully. -/
theorem build_fail_fast_on_embed_failure (rows : List Row)
    (embed : String → Option Vec) (d : Nat) :
    ((∃ row ∈ rows, embed (parseDict row).1 = none) →
        build_rag_database rows embed d = .embedFailure) ∧
    (∀ (idx : List Vec) (md : List Payload),
        build_rag_database rows embed d = .success idx md →
        ∀ row ∈ rows, (embed (parseDict row).1).isSome) := by
  constructor
  · intro hfail
    unfold build_rag_database
    rw [processRows_eq_none_of_fail embed rows hfail]
  · intro idx md hsucc row hmem
    cases hsome : embed (parseDict row).1 with
    | some v => rfl
    | none =>
      have hnone := processRows_eq_none_of_fail embed rows ⟨row, hmem, hsome⟩
      unfold build_rag_database at hsucc
      rw [hnone] at hsucc
      simp at hsucc

/-- Witness for C5: one record whose embedding raises makes the build
return `embedFailure`. -/
theorem build_fail_fast_witness :
    build_rag_database [([] : Row)] (fun _ => none) 1024 =
      BuildResult.embedFailure := by
  exact (build_fail_fast_on_embed_failure [([] : Row)] (fun _ => none) 1024).1
    ⟨[], List.mem_cons_self _ _, rfl⟩

/-- C6 counterexample.  With one record whose (constant) embedding has
length 2 and configured dimension 3, every accumulated vector's length
differs from the configured dimension, yet `np.vstack` succeeds (the
lengths are mutually consistent and are never compared against
`embedding_dim`), so the raise happens in `index.add`
(`addFailure`) — after `faiss.IndexFlatL2(embedding_dim)` has been
constructed — not before index construction (`stackFailure`) as the
claim states. -/
theorem dim_check_not_before_index_cex :
    processRows (fun _ => some [0, 0]) [([] : Row)] =
      some ([[0, 0]], [mkMeta (parseDict ([] : Row)).1 (parseDict ([] : Row)).2]) ∧
    ([0, 0] : Vec).length ≠ 3 ∧
    build_rag_database [([] : Row)] (fun _ => some [0, 0]) 3 =
      BuildResult.addFailure ∧
    BuildResult.addFailure ≠ BuildResult.stackFailure := by
  refine ⟨rfl, by decide, rfl, by decide⟩

/-- C6 amended. After all records succeed, the build raises on any
vector whose length differs from the configured dimension
`embedding_dim` before anything is persisted — but the raise is at
`np.vstack` only when lengths are mutually inconsistent; when all
vectors share one (wrong) length it occurs at `index.add`, after the
nearest-neighbor index object has been constructed.  In all cases the
build never reaches `success`. -/
theorem dim_mismatch_never_persists (rows : List Row)
    (embed : String → Option Vec) (d : Nat) (es : List Vec)
    (ms : List Payload) (h : processRows embed rows = some (es, ms))
    (hv : ∃ v ∈ es, v.length ≠ d) :
    (build_rag_database rows embed d = .stackFailure ∨
     build_rag_database rows embed d = .addFailure) ∧
    (build_rag_database rows embed d).isSuccess = false := by
  obtain ⟨v, hvmem, hvlen⟩ := hv
  unfold build_rag_database
  rw [h]
  dsimp only
  cases hst : vstack es with
  | none => exact ⟨Or.inl rfl, rfl⟩
  | some stacked =>
    dsimp only
    have hse : stacked = es := vstack_eq_some es stacked hst
    have hadd : faissAdd d stacked = false := by
      rw [hse]
      by_contra hcon
      have htrue : faissAdd d es = true := by
        cases hfa : faissAdd d es with
        | true => rfl
        | false => exact absurd hfa hcon
      have := (List.all_eq_true.mp htrue) v hvmem
      exact hvlen (by exact_mod_cast (decide_eq_true_eq.mp this))
    rw [hadd]
    exact ⟨Or.inr rfl, rfl⟩

/-- Witness for C6 amended: two records with mutually inconsistent
vector lengths make the build fail at stacking, persisting nothing. -/
theorem dim_mismatch_never_persists_witness :
    (build_rag_database [([] : Row), []] (fun s => some [(s.length : Int)]) 5
        = BuildResult.stackFailure ∨
     build_rag_database [([] : Row), []] (fun s => some [(s.length : Int)]) 5
        = BuildResult.addFailure) ∧
    (build_rag_database [([] : Row), []] (fun s => some [(s.length : Int)]) 5).isSuccess
      = false := by
  exact dim_mismatch_never_persists [([] : Row), []]
    (fun s => some [(s.length : Int)]) 5
    [[((parseDict ([] : Row)).1.length : Int)], [((parseDict ([] : Row)).1.length : Int)]]
    [ mkMeta (parseDict ([] : Row)).1 (parseDict ([] : Row)).2,
      mkMeta (parseDict ([] : Row)).1 (parseDict ([] : Row)).2 ] rfl
    ⟨[((parseDict ([] : Row)).1.length : Int)], List.mem_cons_self _ _, by decide⟩

/-- C7. For every payload text longer than 120 characters, the query
client's preview is exactly the first 120 characters (with embedded
newlines replaced by spaces) followed by the continuation marker "...";
for every text of at most 120 characters, the preview is the text
unmodified apart from newline replacement, with no marker appended. -/
theorem preview_truncation (text : String) :
    (text.data.length > 120 →
        previewSnippet text =
          String.mk ((replaceNewlines text).data.take 120) ++ "..." ∧
        (previewSnippet text).data.length = 123) ∧
    (text.data.length ≤ 120 → previewSnippet text = replaceNewlines text) := by
  constructor
  · intro hlong
    have hsnip : replaceNewlines ⟨text.data.take 120⟩ =
        String.mk ((replaceNewlines text).data.take 120) := by
      simp [replaceNewlines, List.map_take]
    constructor
    · rw [previewSnippet, if_pos hlong, hsnip]
    · rw [previewSnippet, if_pos hlong, hsnip]
      show (((replaceNewlines text).data.take 120) ++ ('.' :: '.' :: '.' :: [])).length = 123
      rw [List.length_append, List.length_take, replaceNewlines]
      show min 120 (text.data.map _).length + 3 = 123
      rw [List.length_map, Nat.min_eq_left (Nat.le_of_lt hlong)]
  · intro hshort
    rw [previewSnippet, if_neg (by omega)]
    show replaceNewlines ⟨text.data.take 120⟩ = replaceNewlines text
    rw [List.take_of_length_le hshort]

/-- Witness for C7: a 200-character text is previewed as 120 characters
plus the marker (123 in all); a 50-character text is unchanged. -/
theorem preview_truncation_witness :
    (previewSnippet ⟨List.replicate 200 'a'⟩).data.length = 123 ∧
    previewSnippet ⟨List.replicate 50 'a'⟩ =
      replaceNewlines ⟨List.replicate 50 'a'⟩ := by
  constructor
  · refine ((preview_truncation ⟨List.replicate 200 'a'⟩).1 ?_).2
    show (List.replicate 200 'a').length > 120
    rw [List.length_replicate]
    omega
  · refine (preview_truncation ⟨List.replicate 50 'a'⟩).2 ?_
    show (List.replicate 50 'a').length ≤ 120
    rw [List.length_replicate]
    omega

/-- C8. Input loading attempts GBK first and, exactly when that attempt
raises a `UnicodeDecodeError`, retries with UTF-8 (any other GBK
outcome, success or other error, is returned as is); the load fails
overall only if the attempted decodings failed — and the UTF-8 attempt
is consulted exactly in the decode-failure case. -/
theorem encoding_fallback {Df : Type} (gbk utf8 : Except ReadErr Df) :
    (gbk = .error .unicodeDecodeError → loadCsv gbk utf8 = utf8) ∧
    (gbk ≠ .error .unicodeDecodeError → loadCsv gbk utf8 = gbk) ∧
    (∀ e : ReadErr, loadCsv gbk utf8 = .error e →
        (∃ eg, gbk = .error eg) ∧
        (gbk = .error .unicodeDecodeError → utf8 = .error e)) := by
  refine ⟨?_, ?_, ?_⟩
  · intro hg; rw [hg]; rfl
  · intro hg
    cases gbk with
    | ok df => rfl
    | error e =>
      cases e with
      | unicodeDecodeError => exact absurd rfl hg
      | otherError => rfl
  · intro e hload
    cases gbk with
    | ok df => simp [loadCsv] at hload
    | error eg =>
      cases eg with
      | unicodeDecodeError =>
        exact ⟨⟨.unicodeDecodeError, rfl⟩, fun _ => hload⟩
      | otherError =>
        refine ⟨⟨.otherError, rfl⟩, fun hcon => ?_⟩
        simp at hcon

/-- Witness for C8: a GBK decode failure falls back to a succeeding
UTF-8 read; a GBK success is returned unchanged. -/
theorem encoding_fallback_witness :
    loadCsv (Except.error ReadErr.unicodeDecodeError) (Except.ok (37 : Nat)) =
      Except.ok 37 ∧
    loadCsv (Except.ok (5 : Nat)) (Except.error ReadErr.otherError) =
      Except.ok 5 := by
  constructor
  · exact (encoding_fallback (Except.error ReadErr.unicodeDecodeError)
      (Except.ok (37 : Nat))).1 rfl
  · exact (encoding_fallback (Except.ok (5 : Nat))
      (Except.error ReadErr.otherError)).2.1 (by simp)

/-- C9. The build step stores each metadata entry's class code under the
key "category", while the query client reads the code from the payload
key "catagory" (a misspelling) and substitutes its default display value
"未分类" when that key is absent; consequently, for any payload carrying
only the build-time keys, the client reports the default, never the
stored code. -/
theorem category_key_mismatch (text : String) (category : Nat) :
    dget (mkMeta text category) "category" = some (PValue.n category) ∧
    dget (mkMeta text category) "catagory" = none ∧
    clientCategory (mkMeta text category) = PValue.s "未分类" := by
  exact ⟨rfl, rfl, rfl⟩

/-- C10. The `dim` parameter of `get_embedding` has no effect: for every
provider, text, and pair of `dim` arguments the results coincide, and
whenever the provider `encode` returns one vector per input text, each
of the provider's fixed length, the returned vector has that provider
length regardless of `dim`. -/
theorem get_embedding_dim_unused
    (encode : List String → Nat → Nat → List Vec) (text : String)
    (d1 d2 providerDim : Nat)
    (hlen : ∀ ts b m, (encode ts b m).length = ts.length)
    (hdim : ∀ ts b m, ∀ v ∈ encode ts b m, v.length = providerDim) :
    get_embedding encode text d1 = get_embedding encode text d2 ∧
    (get_embedding encode text d1).length = providerDim := by
  refine ⟨rfl, ?_⟩
  cases henc : encode [text] 1 512 with
  | nil =>
    have := hlen [text] 1 512
    rw [henc] at this
    simp at this
  | cons v rest =>
    have hv : v ∈ encode [text] 1 512 := by
      rw [henc]; exact List.mem_cons_self _ _
    show ((encode [text] 1 512).headD []).length = providerDim
    rw [henc]
    exact hdim [text] 1 512 v hv

/-- Witness for C10: a provider returning 1024-long vectors, queried
with the Python default `dim = 384` and the 1024 that
`build_rag_database` passes, gives identical 1024-long results. -/
theorem get_embedding_dim_unused_witness :
    get_embedding (fun ts _ _ => ts.map (fun _ => List.replicate 1024 0)) "x" 1024 =
      get_embedding (fun ts _ _ => ts.map (fun _ => List.replicate 1024 0)) "x" 384 ∧
    (get_embedding (fun ts _ _ => ts.map (fun _ => List.replicate 1024 0)) "x" 1024).length
      = 1024 := by
  exact get_embedding_dim_unused
    (fun ts _ _ => ts.map (fun _ => List.replicate 1024 0)) "x" 1024 384 1024
    (fun ts b m => List.length_map ts _)
    (fun ts b m v hv => by
      simp only [List.mem_map] at hv
      obtain ⟨a, _, hva⟩ := hv
      rw [← hva, List.length_replicate])

end RagGoServer
